import Mathlib

/-!
Verification of the MRGCN node-classification pipeline.

This file gives a shallow embedding of the two source modules

  * `mrgcn.py`                      — the Masked Evaluator
    (`categorical_crossentropy`, `accuracy`, `evaluate_preds`) and the
    training loop `run`;
  * `tasks/node_classification.py`  — the Dataset Builder `build_dataset`
    and the model constructor `build_model`;

and proves the frozen claims about them.  Matrices are embedded as lists
of rows over `ℚ` (numpy float arrays become exact rationals; `np.log` is
an arbitrary elementwise function parameter `logf`, since nothing proved
here depends on which monotone real function it is).
-/

namespace Mrgcn

/-! ## Masked Evaluator (`mrgcn.py`, lines 84-100) -/

/-- `np.mean` on a flat list: sum divided by length.  On the empty list
numpy emits a RuntimeWarning and yields NaN; in `ℚ` the division
`0 / 0` yields the junk value `0` — either way no error is raised. -/
def qmean (l : List ℚ) : ℚ := l.sum / (l.length : ℚ)

/-- `np.extract(condition, arr)` for same-shape flat arrays: the entries
of `arr` at the positions where `condition` is nonzero. -/
def npExtract (cond arr : List ℚ) : List ℚ :=
  ((cond.zip arr).filter (fun p => decide (p.1 ≠ 0))).map Prod.snd

/-- Row-major flattening of a matrix (numpy `ravel`). -/
def matFlat : List (List ℚ) → List ℚ
  | [] => []
  | r :: rs => r ++ matFlat rs

/-- `categorical_crossentropy(preds, labels)` from `mrgcn.py` line 84-85:
`np.mean(-np.log(np.extract(labels, preds)))`. -/
def categorical_crossentropy (logf : ℚ → ℚ) (preds labels : List (List ℚ)) : ℚ :=
  qmean ((npExtract (matFlat labels) (matFlat preds)).map (fun p => -(logf p)))

/-- `np.argmax` over a flat array: index of the first occurrence of the
maximum (numpy returns the first maximal index; on the empty array it
raises, here the junk value is `0`). -/
def npArgmax : List ℚ → ℕ
  | [] => 0
  | x :: xs => if xs.all (fun y => decide (y ≤ x)) then 0 else npArgmax xs + 1

/-- `accuracy(preds, labels)` from `mrgcn.py` line 87-88:
`np.mean(np.equal(np.argmax(labels, 1), np.argmax(preds, 1)))`. -/
def accuracy (preds labels : List (List ℚ)) : ℚ :=
  qmean ((labels.zip preds).map
    (fun rows => if npArgmax rows.1 = npArgmax rows.2 then (1 : ℚ) else 0))

/-- Numpy fancy indexing `m[idx]`: the rows of `m` selected by `idx`
in order. -/
def fancyIndex (m : List (List ℚ)) (idx : List ℕ) : List (List ℚ) :=
  idx.map (fun i => m.getD i [])

/-- `evaluate_preds(preds, labels, indices)` from `mrgcn.py` lines
91-100.  The Python loop appends one loss and one accuracy per
`(y_split, idx_split)` pair of `zip(labels, indices)`; that single loop
is rendered as two maps over the same zip, which builds the same two
lists. -/
def evaluate_preds (logf : ℚ → ℚ) (preds : List (List ℚ))
    (labels : List (List (List ℚ))) (indices : List (List ℕ)) :
    List ℚ × List ℚ :=
  ((labels.zip indices).map (fun p =>
      categorical_crossentropy logf (fancyIndex preds p.2) (fancyIndex p.1 p.2)),
   (labels.zip indices).map (fun p =>
      accuracy (fancyIndex preds p.2) (fancyIndex p.1 p.2)))

/-! ## Spec-side formula for the masked loss (claim C1)

The following definitions follow the spec's words, not the source: the
loss of a `(label, subset)` pair is "the mean of `-log(P[i,c])` taken
over exactly the positions `(i,c)` with row `i` in the subset and
`label[i,c] = 1`". -/

/-- Spec formula, one row: the terms `-log(prow[c])` for the columns `c`
with `yrow[c] = 1`. -/
def specRowTerms (logf : ℚ → ℚ) (prow yrow : List ℚ) : List ℚ :=
  ((List.range yrow.length).filter (fun c => decide (yrow.getD c 0 = 1))).map
    (fun c => -(logf (prow.getD c 0)))

/-- Spec formula, all selected positions: rows `i` ranging over the
subset, columns `c` with `labels[i][c] = 1`. -/
def specMaskedTerms (logf : ℚ → ℚ) (preds labels : List (List ℚ)) :
    List ℕ → List ℚ
  | [] => []
  | i :: rest =>
    specRowTerms logf (preds.getD i []) (labels.getD i []) ++
      specMaskedTerms logf preds labels rest

/-- Spec formula for the masked loss: the mean of `-log(P[i,c])` over
the positions `(i,c)` with `i` in the subset and `labels[i,c] = 1`. -/
def specMaskedLoss (logf : ℚ → ℚ) (preds labels : List (List ℚ))
    (idx : List ℕ) : ℚ :=
  qmean (specMaskedTerms logf preds labels idx)

/-! ## The training loop `run` (`mrgcn.py`, lines 18-82)

The keras model object is abstracted as a state type `M` with one
gradient step `fit : M → M` (one `model.fit` call on the full batch with
the training mask) and an inference-mode forward pass
`predict : M → List (List ℚ)` (one `model.predict` call on the full
graph); the dataset splits are the label matrices and index lists the
loop passes to `evaluate_preds`.  The observable actions of the loop are
recorded as a trace of events in program order. -/

/-- One observable action of `run`. -/
inductive REvent where
  | fitE : ℕ → REvent
  | predictE : ℕ → REvent
  | printFullE : ℕ → List ℚ × List ℚ → REvent
  | printTimeE : ℕ → REvent
  | evalTestE : REvent
deriving DecidableEq

/-- The data `run` closes over: the abstract compiled model and the
splits produced by `create_splits`. -/
structure RunEnv (M : Type) where
  fit : M → M
  predict : M → List (List ℚ)
  logf : ℚ → ℚ
  trainY : List (List ℚ)
  valY : List (List ℚ)
  testY : List (List ℚ)
  trainIdx : List ℕ
  valIdx : List ℕ
  testIdx : List ℕ

/-- One iteration of the `for epoch in range(1, nepoch+1)` body
(`mrgcn.py` lines 46-75): a single `model.fit` step, then — when
`epoch % 1 == 0` — a full-graph `model.predict`, the train/validation
`evaluate_preds` call and the full progress line; otherwise only the
time-only progress line. -/
def epochStep {M : Type} (env : RunEnv M) (epoch : ℕ) (m : M)
    (yhat : Option (List (List ℚ))) :
    M × Option (List (List ℚ)) × List REvent :=
  let m2 := env.fit m
  if epoch % 1 = 0 then
    let Y := env.predict m2
    let tv := evaluate_preds env.logf Y [env.trainY, env.valY]
      [env.trainIdx, env.valIdx]
    (m2, some Y, [.fitE epoch, .predictE epoch, .printFullE epoch tv])
  else
    (m2, yhat, [.fitE epoch, .printTimeE epoch])

/-- The epoch loop, iterated over the list of epoch numbers.  `Y_hat`
starts as `None` (line 41) and is only assigned inside the reporting
branch (line 57). -/
def runLoop {M : Type} (env : RunEnv M) :
    List ℕ → M → Option (List (List ℚ)) →
      M × Option (List (List ℚ)) × List REvent
  | [], m, yhat => (m, yhat, [])
  | e :: rest, m, yhat =>
    let s := epochStep env e m yhat
    let t := runLoop env rest s.1 s.2.1
    (t.1, t.2.1, s.2.2 ++ t.2.2)

/-- The outcome of `run`: the trace, the final `Y_hat`, and the test
evaluation (lines 77-82). -/
structure RunResult where
  events : List REvent
  YhatFinal : Option (List (List ℚ))
  testResult : Except String (List ℚ × List ℚ)

/-- The post-loop test section of `run` (`mrgcn.py` lines 77-82): one
`evaluate_preds` call on the test split using the `Y_hat` left by the
loop, which raises a `TypeError` when `Y_hat` is still `None`. -/
def testSection {M : Type} (env : RunEnv M) :
    Option (List (List ℚ)) × List REvent → RunResult
  | (none, evs) =>
    { events := evs
      YhatFinal := none
      testResult := Except.error "TypeError: NoneType object is not subscriptable" }
  | (some Y, evs) =>
    { events := evs ++ [.evalTestE]
      YhatFinal := some Y
      testResult := Except.ok (evaluate_preds env.logf Y [env.testY] [env.testIdx]) }

/-- `run` (`mrgcn.py` lines 41-82), given the epoch count
`config['model']['epoch']` and the initial compiled-model state:
`range(1, nepoch+1)` is `List.range' 1 nepoch`, followed by the test
section. -/
def run {M : Type} (env : RunEnv M) (nepoch : ℕ) (m0 : M) : RunResult :=
  testSection env (runLoop env (List.range' 1 nepoch) m0 none).2

/-- A concrete abstract-model environment for the witnesses: the model
state is a step counter, `fit` increments it, `predict` returns a fixed
one-row prediction matrix. -/
def demoEnv : RunEnv ℕ where
  fit := Nat.succ
  predict := fun _ => [[1]]
  logf := fun q => q
  trainY := [[1]]
  valY := [[1]]
  testY := [[1]]
  trainIdx := [0]
  valIdx := [0]
  testIdx := [0]

/-! ## Dataset Builder (`tasks/node_classification.py`, lines 28-48)

`build_dataset` receives the knowledge graph's atom enumeration
(`kg.atoms()`, a list of node labels) and the list of target triples
`(node, relation, class)`.  The embedding keeps the label types
abstract.  Python semantics reproduced here:

* `nodes_map = {label: i for i, label in enumerate(atoms)}` — a dict
  comprehension in which a later duplicate label overwrites an earlier
  one, so a label maps to the index of its last occurrence (`lastIdx`);
* `classes = {t[2] for t in target_triples}` — a set; its iteration
  order is unspecified in Python, so `classes_map` is modelled over one
  fixed enumeration of the distinct classes, `dedup` order (every claim
  only uses that the map is an injective enumeration);
* `nodes_map[x]` raises a `KeyError` for a node absent from the
  enumeration (line 39);
* `map(np.array, zip(*target_labels))` raises a `ValueError` (not
  enough values to unpack) when the target list is empty (line 40);
* the COO-to-CSR constructor (line 41-43) sums duplicate
  `(row, col)` coordinate pairs, so `Y[r, c]` is the number of target
  statements resolving to `(r, c)`;
* `X = sp.csr_matrix((N, N))` (line 46) is the N×N all-zero
  ("identity-shaped" placeholder) sparse matrix. -/

namespace NodeClassification

variable {α ρ γ : Type} [DecidableEq α] [DecidableEq ρ] [DecidableEq γ]

/-- The index a Python dict comprehension `{label: i for i, label in
enumerate(l)}` assigns to `x`: the position of the last occurrence of
`x` in `l`, or `none` when `x` does not occur (`KeyError` on lookup). -/
def lastIdx : List α → α → Option ℕ
  | [], _ => none
  | a :: l, x =>
    match lastIdx l x with
    | some j => some (j + 1)
    | none => if a = x then some 0 else none

/-- The result of `build_dataset`: the placeholder feature matrix `X`,
the label matrix `Y` (as entry functions plus shapes) and the row
indices of the targets. -/
structure Dataset where
  Xshape : ℕ × ℕ
  Xval : ℕ → ℕ → ℚ
  Yshape : ℕ × ℕ
  Yval : ℕ → ℕ → ℕ
  X_node_idx : List ℕ

/-- Line 39: `[(nodes_map[x], classes_map[y]) for x, _, y in
target_triples]`; `none` models the `KeyError` raised at the first
failing lookup. -/
def resolveTargets (atoms : List α) (classes : List γ) :
    List (α × ρ × γ) → Option (List (ℕ × ℕ))
  | [] => some []
  | t :: ts =>
    match lastIdx atoms t.1, lastIdx classes t.2.2 with
    | some r, some c => (resolveTargets atoms classes ts).map (fun l => (r, c) :: l)
    | _, _ => none

/-- `build_dataset` (`tasks/node_classification.py` lines 28-48). -/
def build_dataset (atoms : List α) (targets : List (α × ρ × γ)) :
    Except String Dataset :=
  match resolveTargets atoms ((targets.map (fun t => t.2.2)).dedup) targets with
  | none => Except.error "KeyError"
  | some targetLabels =>
    if targetLabels.isEmpty then
      Except.error "ValueError: not enough values to unpack"
    else
      Except.ok
        { Xshape := (atoms.dedup.length, atoms.dedup.length)
          Xval := fun _ _ => 0
          Yshape := (atoms.dedup.length, ((targets.map (fun t => t.2.2)).dedup).length)
          Yval := fun r c => targetLabels.countP (fun p => decide (p.1 = r ∧ p.2 = c))
          X_node_idx := targetLabels.map (fun p => p.1) }

/-- Whether `build_dataset` returned without raising. -/
def buildOk (e : Except String Dataset) : Bool :=
  match e with
  | .ok _ => true
  | .error _ => false

/-- The `Xshape` of a successful build (junk `(0, 0)` on error). -/
def XshapeOf (e : Except String Dataset) : ℕ × ℕ :=
  match e with
  | .ok d => d.Xshape
  | .error _ => (0, 0)

/-- An `X` entry of a successful build (junk `0` on error). -/
def XvalOf (e : Except String Dataset) (r c : ℕ) : ℚ :=
  match e with
  | .ok d => d.Xval r c
  | .error _ => 0

/-- A `Y` entry of a successful build (junk `0` on error). -/
def YvalOf (e : Except String Dataset) (r c : ℕ) : ℕ :=
  match e with
  | .ok d => d.Yval r c
  | .error _ => 0

/-! ### Model constructor `build_model` (`tasks/node_classification.py`,
lines 50-90) and claim C7

The keras `GraphConvolution` layer class lives outside `src/`
(`layers/graph.py`); what `build_model` decides is which constructor
arguments are passed.  A layer built without a `W_regularizer` argument
gets the constructor default (no weight regularizer, `None` in the
upstream class), and a layer built without `featureless` gets the
default `False`; that default is recorded as `none` / `false` here. -/

/-- One entry of `config['model']['layers']`. -/
structure LayerConfig where
  hidden_nodes : ℕ
  num_bases : ℤ
  featureless : Bool
  activation : String
  dropout : ℚ
  l2norm : ℚ
deriving DecidableEq

instance : Inhabited LayerConfig := ⟨⟨0, 0, false, "", 0, 0⟩⟩

/-- The constructor arguments of one `GraphConvolution` layer, plus the
rate of the `Dropout` layer stacked after it (if any). -/
structure GCLayerSpec where
  units : ℕ
  support : ℕ
  num_bases : ℤ
  featureless : Bool
  activation : String
  w_reg : Option ℚ
  dropoutAfter : Option ℚ
deriving DecidableEq

instance : Inhabited GCLayerSpec := ⟨⟨0, 0, 0, false, "", none, none⟩⟩

/-- A hidden graph-convolution layer (lines 60-66 for `layers[0]`,
lines 69-76 for `layers[i]`, `i = 1..len-2`): built from its own config
entry, with `W_regularizer = l2(l2norm)` and a `Dropout(dropout)` after
it. -/
def hiddenLayerSpec (support : ℕ) (cfg : LayerConfig) : GCLayerSpec :=
  { units := cfg.hidden_nodes
    support := support
    num_bases := cfg.num_bases
    featureless := cfg.featureless
    activation := cfg.activation
    w_reg := some cfg.l2norm
    dropoutAfter := some cfg.dropout }

/-- The output graph-convolution layer (lines 79-81): `Y.shape[1]`
units, only `num_bases` and `activation` taken from `layers[-1]`, no
`W_regularizer` and no `featureless` argument (constructor defaults),
and no dropout after it. -/
def outputLayerSpec (support : ℕ) (Ycols : ℕ) (cfg : LayerConfig) : GCLayerSpec :=
  { units := Ycols
    support := support
    num_bases := cfg.num_bases
    featureless := false
    activation := cfg.activation
    w_reg := none
    dropoutAfter := none }

/-- `build_model` (`tasks/node_classification.py` lines 50-90), reduced
to the list of `GraphConvolution` layers it stacks: the
`assert len(layers) >= 2` (line 52), the hidden layers built from
configs `0 .. len-2`, and the output layer built from `layers[-1]`. -/
def build_model (layers : List LayerConfig) (Ycols : ℕ) (support : ℕ) :
    Except String (List GCLayerSpec) :=
  if layers.length < 2 then Except.error "AssertionError"
  else Except.ok
    ((layers.take (layers.length - 1)).map (hiddenLayerSpec support) ++
      [outputLayerSpec support Ycols (layers.getD (layers.length - 1) default)])

/-- The `W_regularizer` of the `j`-th stacked layer of a successful
build (junk `none` on error). -/
def wregOf (e : Except String (List GCLayerSpec)) (j : ℕ) : Option ℚ :=
  match e with
  | .ok l => (l.getD j default).w_reg
  | .error _ => none

/-- A concrete hidden-layer configuration for the C7 theorems. -/
def demoCfgHidden : LayerConfig :=
  { hidden_nodes := 16, num_bases := -1, featureless := true,
    activation := "relu", dropout := 1/2, l2norm := 1/100 }

/-- A concrete output-layer configuration for the C7 theorems. -/
def demoCfgOut : LayerConfig :=
  { hidden_nodes := 3, num_bases := -1, featureless := false,
    activation := "softmax", dropout := 0, l2norm := 1/100 }

end NodeClassification

/-! # Theorems

Everything below is a proof about the definitions above; the claim
theorems are marked with their claim ids. -/

/-! ## Lemmas relating the code's extraction to the spec's position set -/

theorem npExtract_append (c1 a1 c2 a2 : List ℚ) (h : c1.length = a1.length) :
    npExtract (c1 ++ c2) (a1 ++ a2) = npExtract c1 a1 ++ npExtract c2 a2 := by
  simp [npExtract, List.zip_append h, List.filter_append]

theorem extract_row (logf : ℚ → ℚ) :
    ∀ (yrow prow : List ℚ), yrow.length = prow.length →
      (∀ v ∈ yrow, v = 0 ∨ v = 1) →
      (npExtract yrow prow).map (fun p => -(logf p)) = specRowTerms logf prow yrow
  | [], [], _, _ => by simp [npExtract, specRowTerms]
  | [], q :: ps, h, _ => by simp at h
  | v :: ys, [], h, _ => by simp at h
  | v :: ys, q :: ps, h, h01 => by
    have hlen : ys.length = ps.length := by simpa using h
    have h01' : ∀ v ∈ ys, v = 0 ∨ v = 1 := fun w hw => h01 w (List.mem_cons_of_mem _ hw)
    have ih := extract_row logf ys ps hlen h01'
    have hv : v = 0 ∨ v = 1 := h01 v (List.mem_cons_self _ _)
    have hshift :
        specRowTerms logf (q :: ps) (v :: ys) =
          (if v = 1 then [-(logf q)] else []) ++ specRowTerms logf ps ys := by
      simp only [specRowTerms, List.length_cons, List.range_succ_eq_map,
        List.filter_cons, List.getD_cons_zero, List.filter_map, List.map_map]
      rcases eq_or_ne v 1 with hv1 | hv1
      · simp [hv1, Function.comp_def]
      · simp [hv1, Function.comp_def]
    have ih' : List.map ((fun p => -(logf p)) ∘ Prod.snd)
        (List.filter (fun p => !decide (p.1 = 0)) (ys.zip ps)) = specRowTerms logf ps ys := by
      simpa [npExtract, List.map_map, decide_not] using ih
    rw [hshift]
    simp only [npExtract, List.zip_cons_cons, List.filter_cons]
    rcases hv with hv0 | hv1
    · subst hv0; simp [ih']
    · subst hv1; simp [ih']

theorem extract_flat (logf : ℚ → ℚ) (preds labels : List (List ℚ)) :
    ∀ idx : List ℕ,
      (∀ i ∈ idx, (labels.getD i []).length = (preds.getD i []).length) →
      (∀ i ∈ idx, ∀ v ∈ labels.getD i [], v = 0 ∨ v = 1) →
      (npExtract (matFlat (fancyIndex labels idx))
          (matFlat (fancyIndex preds idx))).map (fun p => -(logf p)) =
        specMaskedTerms logf preds labels idx
  | [], _, _ => by simp [fancyIndex, matFlat, npExtract, specMaskedTerms]
  | i :: rest, hlen, h01 => by
    have hl := hlen i (List.mem_cons_self _ _)
    have ih := extract_flat logf preds labels rest
      (fun j hj => hlen j (List.mem_cons_of_mem _ hj))
      (fun j hj => h01 j (List.mem_cons_of_mem _ hj))
    simp only [fancyIndex, List.map_cons, matFlat, specMaskedTerms]
    rw [npExtract_append _ _ _ _ hl, List.map_append,
      extract_row logf _ _ hl (h01 i (List.mem_cons_self _ _))]
    simp only [fancyIndex] at ih
    rw [ih]

/-- C1: for every full prediction matrix `P`, list of label matrices and
matching list of non-empty index subsets (with 0/1 label entries and
matching row widths), `evaluate_preds` returns as the loss of each
`(label, subset)` pair the mean of `-log(P[i,c])` over exactly the
positions `(i,c)` with row `i` in the subset and `label[i,c] = 1`
(`specMaskedLoss`), and this value equals the result of manually slicing
`P` and the label matrix to the subset's rows (`fancyIndex`) and applying
the unmasked cross-entropy formula `categorical_crossentropy`. -/
theorem C1_masked_loss_eq_spec (logf : ℚ → ℚ) (preds : List (List ℚ))
    (labels : List (List (List ℚ))) (indices : List (List ℕ))
    (hne : ∀ s ∈ indices, s ≠ [])
    (hlen : ∀ p ∈ labels.zip indices, ∀ i ∈ p.2,
      (((p.1 : List (List ℚ))).getD i []).length = (preds.getD i []).length)
    (h01 : ∀ p ∈ labels.zip indices, ∀ i ∈ p.2,
      ∀ v ∈ ((p.1 : List (List ℚ))).getD i [], v = 0 ∨ v = 1) :
    (evaluate_preds logf preds labels indices).1 =
        (labels.zip indices).map (fun p => specMaskedLoss logf preds p.1 p.2) ∧
      (evaluate_preds logf preds labels indices).1 =
        (labels.zip indices).map (fun p =>
          categorical_crossentropy logf (fancyIndex preds p.2) (fancyIndex p.1 p.2)) := by
  constructor
  · unfold evaluate_preds
    apply List.map_congr_left
    intro p hp
    unfold categorical_crossentropy specMaskedLoss
    rw [extract_flat logf preds p.1 p.2 (hlen p hp) (h01 p hp)]
  · rfl

/-- Witness for C1 at a concrete input: two prediction rows, one label
matrix, the subset `[0, 1]`. -/
theorem C1_witness :
    ((∀ s ∈ [[0, 1]], s ≠ ([] : List ℕ)) ∧
      (evaluate_preds (fun q => q) [[1/2, 1/2], [1/4, 3/4]]
            [[[1, 0], [0, 1]]] [[0, 1]]).1 =
        ([[[1, 0], [0, 1]]].zip [[0, 1]]).map
          (fun p => specMaskedLoss (fun q => q) [[1/2, 1/2], [1/4, 3/4]] p.1 p.2)) := by
  refine ⟨by simp, ?_⟩
  exact (C1_masked_loss_eq_spec (fun q => q) [[1/2, 1/2], [1/4, 3/4]]
    [[[1, 0], [0, 1]]] [[0, 1]] (by simp)
    (by intro p hp i hi; fin_cases hp <;> fin_cases hi <;> norm_num)
    (by intro p hp i hi v hv; fin_cases hp <;> fin_cases hi <;> simp_all <;> tauto)).1

/-! ## Accuracy as a fraction of argmax agreements (claim C2) -/

theorem sum_indicator_countP (q : α → Prop) [DecidablePred q] :
    ∀ l : List α,
      (l.map (fun a => if q a then (1 : ℚ) else 0)).sum =
        (l.countP (fun a => decide (q a)) : ℚ)
  | [] => by simp
  | a :: l => by
    by_cases h : q a <;>
      simp [h, List.countP_cons, sum_indicator_countP q l] <;> push_cast <;> ring

theorem accuracy_eq_fraction (preds labels : List (List ℚ)) (s : List ℕ) :
    accuracy (fancyIndex preds s) (fancyIndex labels s) =
      ((s.countP (fun i =>
          decide (npArgmax (labels.getD i []) = npArgmax (preds.getD i [])))) : ℚ) /
        (s.length : ℚ) := by
  unfold accuracy fancyIndex qmean
  rw [List.zip_map', List.map_map]
  simp only [Function.comp_def]
  rw [sum_indicator_countP
    (fun i => npArgmax (labels.getD i []) = npArgmax (preds.getD i [])) s]
  simp

/-- C2: for every full prediction matrix `P`, list of label matrices and
matching list of index subsets, `evaluate_preds` returns as the accuracy
of each `(label, subset)` pair the fraction of rows `i` in the subset
whose prediction-row argmax equals the label-row argmax, and the loss
and accuracy lists are parallel: both have one entry per input pair, the
`j`-th entry computed from the `j`-th `(label, subset)` pair. -/
theorem C2_accuracy_and_order (logf : ℚ → ℚ) (preds : List (List ℚ))
    (labels : List (List (List ℚ))) (indices : List (List ℕ))
    (hpar : labels.length = indices.length) :
    ((evaluate_preds logf preds labels indices).1.length = labels.length ∧
      (evaluate_preds logf preds labels indices).2.length = labels.length) ∧
    (evaluate_preds logf preds labels indices).2 =
      (labels.zip indices).map (fun p =>
        ((p.2.countP (fun i =>
            decide (npArgmax (((p.1 : List (List ℚ))).getD i []) =
              npArgmax (preds.getD i [])))) : ℚ) / ((p.2.length : ℚ))) ∧
    (evaluate_preds logf preds labels indices).1 =
      (labels.zip indices).map (fun p =>
        categorical_crossentropy logf (fancyIndex preds p.2) (fancyIndex p.1 p.2)) ∧
    (evaluate_preds logf preds labels indices).2 =
      (labels.zip indices).map (fun p =>
        accuracy (fancyIndex preds p.2) (fancyIndex p.1 p.2)) := by
  refine ⟨⟨?_, ?_⟩, ?_, rfl, rfl⟩
  · simp [evaluate_preds, hpar]
  · simp [evaluate_preds, hpar]
  · unfold evaluate_preds
    apply List.map_congr_left
    intro p _
    exact accuracy_eq_fraction preds p.1 p.2

/-- Witness for C2 at a concrete input. -/
theorem C2_witness :
    ([[[(1 : ℚ), 0], [0, 1]]].length = [[0, 1]].length) ∧
    (evaluate_preds (fun q => q) [[1/2, 1/2], [1/4, 3/4]]
        [[[1, 0], [0, 1]]] [[0, 1]]).2 =
      ([[[(1 : ℚ), 0], [0, 1]]].zip [[0, 1]]).map (fun p =>
        ((p.2.countP (fun i =>
            decide (npArgmax (((p.1 : List (List ℚ))).getD i []) =
              npArgmax (([[1/2, 1/2], [1/4, 3/4]] : List (List ℚ)).getD i [])))) : ℚ) /
          ((p.2.length : ℚ))) :=
  ⟨rfl, (C2_accuracy_and_order (fun q => q) [[1/2, 1/2], [1/4, 3/4]]
    [[[1, 0], [0, 1]]] [[0, 1]] rfl).2.1⟩

/-! ## Empty-subset behaviour of the evaluator (claim C4)

`categorical_crossentropy` and `accuracy` contain no guard of any kind:
on an empty index subset, `np.extract`/`argmax` select nothing and
`np.mean` of the empty selection is returned directly (numpy yields NaN
and only emits a RuntimeWarning; in the `ℚ` model the empty mean is the
junk value `0 / 0 = 0`).  The function returns normally either way. -/

/-- C4: contrary to the claim, `evaluate_preds` does not fail fast on an
empty index subset: at the concrete input below it silently returns the
mean of an empty selection (`qmean []`, the NaN of the `ℚ` model) as
both the loss and the accuracy of the empty pair. -/
theorem C4_no_empty_subset_guard :
    evaluate_preds (fun q => q) [[(1 : ℚ)]] [[[(1 : ℚ)]]] [[]] =
        ([qmean []], [qmean []]) ∧
      qmean [] = 0 := by
  constructor
  · norm_num [evaluate_preds, categorical_crossentropy, accuracy, fancyIndex,
      npExtract, matFlat, qmean, List.zip, List.zipWith, List.filter]
  · norm_num [qmean]

/-! ### Structure lemmas for the loop -/

/-- The reporting cadence `epoch % 1 == 0` always holds, so every
iteration takes the full-reporting branch. -/
theorem epochStep_eq {M : Type} (env : RunEnv M) (epoch : ℕ) (m : M)
    (yhat : Option (List (List ℚ))) :
    epochStep env epoch m yhat =
      (env.fit m, some (env.predict (env.fit m)),
        [.fitE epoch, .predictE epoch,
          .printFullE epoch (evaluate_preds env.logf (env.predict (env.fit m))
            [env.trainY, env.valY] [env.trainIdx, env.valIdx])]) := by
  simp [epochStep, Nat.mod_one]

theorem runLoop_concat {M : Type} (env : RunEnv M) :
    ∀ (epochs : List ℕ) (e : ℕ) (m : M) (yhat : Option (List (List ℚ))),
      (runLoop env (epochs ++ [e]) m yhat).1 = env.fit^[epochs.length + 1] m ∧
      (runLoop env (epochs ++ [e]) m yhat).2.1 =
        some (env.predict (env.fit^[epochs.length + 1] m)) ∧
      ∃ pre, (runLoop env (epochs ++ [e]) m yhat).2.2 =
        pre ++ [.fitE e, .predictE e,
          .printFullE e (evaluate_preds env.logf
            (env.predict (env.fit^[epochs.length + 1] m))
            [env.trainY, env.valY] [env.trainIdx, env.valIdx])]
  | [], e, m, yhat => by
    simp [runLoop, epochStep_eq, Function.iterate_one]
  | a :: epochs, e, m, yhat => by
    obtain ⟨h1, h2, pre, h3⟩ := runLoop_concat env epochs e (env.fit m)
      (some (env.predict (env.fit m)))
    refine ⟨?_, ?_, ?_⟩
    · show (runLoop env (a :: (epochs ++ [e])) m yhat).1 = _
      simp only [runLoop, epochStep_eq]
      rw [List.length_cons, Function.iterate_succ_apply]
      exact h1
    · show (runLoop env (a :: (epochs ++ [e])) m yhat).2.1 = _
      simp only [runLoop, epochStep_eq]
      rw [List.length_cons, Function.iterate_succ_apply]
      exact h2
    · refine ⟨[REvent.fitE a, REvent.predictE a,
        REvent.printFullE a (evaluate_preds env.logf (env.predict (env.fit m))
          [env.trainY, env.valY] [env.trainIdx, env.valIdx])] ++ pre, ?_⟩
      show (runLoop env (a :: (epochs ++ [e])) m yhat).2.2 = _
      simp only [runLoop, epochStep_eq]
      rw [List.length_cons, Function.iterate_succ_apply]
      rw [h3]
      simp

/-- No iteration ever takes the time-only branch. -/
theorem runLoop_no_timeOnly {M : Type} (env : RunEnv M) :
    ∀ (epochs : List ℕ) (m : M) (yhat : Option (List (List ℚ))) (e : ℕ),
      REvent.printTimeE e ∉ (runLoop env epochs m yhat).2.2
  | [], m, yhat, e => by simp [runLoop]
  | a :: epochs, m, yhat, e => by
    simp only [runLoop, epochStep_eq, List.mem_append, List.mem_cons]
    intro h
    rcases h with h | h
    · rcases h with h | h | h | h <;> simp_all
    · exact runLoop_no_timeOnly env epochs _ _ e h

/-- Every listed epoch produces a full progress report. -/
theorem runLoop_mem_printFull {M : Type} (env : RunEnv M) :
    ∀ (epochs : List ℕ) (m : M) (yhat : Option (List (List ℚ))) (e : ℕ),
      e ∈ epochs →
      ∃ tv, REvent.printFullE e tv ∈ (runLoop env epochs m yhat).2.2
  | [], m, yhat, e, h => by simp at h
  | a :: epochs, m, yhat, e, h => by
    simp only [runLoop, epochStep_eq]
    rcases List.mem_cons.mp h with rfl | h2
    · refine ⟨evaluate_preds env.logf (env.predict (env.fit m))
        [env.trainY, env.valY] [env.trainIdx, env.valIdx], ?_⟩
      simp
    · obtain ⟨tv, htv⟩ := runLoop_mem_printFull env epochs (env.fit m)
        (some (env.predict (env.fit m))) e h2
      exact ⟨tv, by simp [htv]⟩

/-- For a positive epoch count the loop's closed form: final parameters
`fit^[n] m0`, final `Y_hat` from a `predict` on them, and a trace ending
with the final epoch's fit, predict and full report, then the test
evaluation. -/
theorem run_pos {M : Type} (env : RunEnv M) (m0 : M) (n : ℕ) (h : 1 ≤ n) :
    (run env n m0).YhatFinal = some (env.predict (env.fit^[n] m0)) ∧
    (run env n m0).testResult =
      Except.ok (evaluate_preds env.logf (env.predict (env.fit^[n] m0))
        [env.testY] [env.testIdx]) ∧
    ∃ pre, (run env n m0).events =
      pre ++ [.fitE n, .predictE n,
        .printFullE n (evaluate_preds env.logf (env.predict (env.fit^[n] m0))
          [env.trainY, env.valY] [env.trainIdx, env.valIdx]),
        .evalTestE] := by
  obtain ⟨k, rfl⟩ : ∃ k, n = k + 1 := ⟨n - 1, by omega⟩
  have hrange : List.range' 1 (k + 1) = List.range' 1 k ++ [k + 1] := by
    have := List.range'_1_concat 1 k
    simpa [Nat.add_comm] using this
  have hlen : (List.range' 1 k).length = k := by simp
  obtain ⟨h1, h2, pre, h3⟩ := runLoop_concat env (List.range' 1 k) (k + 1) m0 none
  rw [hlen] at h1 h2 h3
  have hpair : (runLoop env (List.range' 1 (k + 1)) m0 none).2 =
      (some (env.predict (env.fit^[k + 1] m0)),
        pre ++ [.fitE (k + 1), .predictE (k + 1),
          .printFullE (k + 1) (evaluate_preds env.logf
            (env.predict (env.fit^[k + 1] m0))
            [env.trainY, env.valY] [env.trainIdx, env.valIdx])]) := by
    rw [hrange]
    exact Prod.ext h2 h3
  unfold run
  rw [hpair]
  refine ⟨rfl, rfl, pre, ?_⟩
  simp [testSection]

/-- C5: for every positive epoch count, after the final epoch's gradient
step the loop performs one more inference-mode forward pass
(`predictE n` after the last `fitE n`), the post-loop test call
evaluates exactly that prediction matrix — `predict` of the final
parameters `fit^[n] m0` — restricted to the test subset, and the final
test results are produced (`Except.ok`). -/
theorem C5_final_test_evaluation {M : Type} (env : RunEnv M) (m0 : M) (n : ℕ)
    (h : 1 ≤ n) :
    (run env n m0).YhatFinal = some (env.predict (env.fit^[n] m0)) ∧
    (run env n m0).testResult =
      Except.ok (evaluate_preds env.logf (env.predict (env.fit^[n] m0))
        [env.testY] [env.testIdx]) ∧
    ∃ pre, (run env n m0).events =
      pre ++ [.fitE n, .predictE n,
        .printFullE n (evaluate_preds env.logf (env.predict (env.fit^[n] m0))
          [env.trainY, env.valY] [env.trainIdx, env.valIdx]),
        .evalTestE] :=
  run_pos env m0 n h

/-- C9: for every positive epoch count, every epoch `1..nepoch` passes
the cadence test `epoch % 1 == 0` and emits the full progress report,
and the time-only reporting branch is never executed. -/
theorem run_events {M : Type} (env : RunEnv M) (n : ℕ) (m0 : M) :
    (run env n m0).events = (runLoop env (List.range' 1 n) m0 none).2.2 ∨
    (run env n m0).events =
      (runLoop env (List.range' 1 n) m0 none).2.2 ++ [REvent.evalTestE] := by
  unfold run
  rw [show (runLoop env (List.range' 1 n) m0 none).2 =
    ((runLoop env (List.range' 1 n) m0 none).2.1,
      (runLoop env (List.range' 1 n) m0 none).2.2) from rfl]
  rcases hx : (runLoop env (List.range' 1 n) m0 none).2.1 with _ | Y
  · left; rfl
  · right; rfl

theorem C9_full_report_every_epoch {M : Type} (env : RunEnv M) (m0 : M)
    (n : ℕ) (h : 1 ≤ n) :
    (∀ e, 1 ≤ e → e ≤ n →
      e % 1 = 0 ∧ ∃ tv, REvent.printFullE e tv ∈ (run env n m0).events) ∧
    ∀ e, REvent.printTimeE e ∉ (run env n m0).events := by
  constructor
  · intro e he1 he2
    refine ⟨Nat.mod_one e, ?_⟩
    have hmem : e ∈ List.range' 1 n := by
      rw [List.mem_range'_1]; omega
    obtain ⟨tv, htv⟩ := runLoop_mem_printFull env (List.range' 1 n) m0 none e hmem
    refine ⟨tv, ?_⟩
    rcases run_events env n m0 with hev | hev <;> rw [hev]
    · exact htv
    · exact List.mem_append_left _ htv
  · intro e hmem
    have hloop : REvent.printTimeE e ∈ (runLoop env (List.range' 1 n) m0 none).2.2 := by
      rcases run_events env n m0 with hev | hev <;> rw [hev] at hmem
      · exact hmem
      · rcases List.mem_append.mp hmem with h2 | h2
        · exact h2
        · simp at h2
    exact runLoop_no_timeOnly env (List.range' 1 n) m0 none e hloop

/-- C10: `run` produces final test results exactly when the configured
epoch count is at least 1.  With `nepoch = 0` the loop body never
executes (empty trace), `Y_hat` remains `None`, and the test evaluation
fails with a `TypeError` when it indexes `None`; with `nepoch ≥ 1` the
test evaluation succeeds. -/
theorem C10_requires_positive_epochs {M : Type} (env : RunEnv M) (m0 : M) :
    ((run env 0 m0).events = [] ∧
      (run env 0 m0).YhatFinal = none ∧
      (run env 0 m0).testResult =
        Except.error "TypeError: NoneType object is not subscriptable") ∧
    ∀ n : ℕ, ((∃ v, (run env n m0).testResult = Except.ok v) ↔ 1 ≤ n) := by
  constructor
  · refine ⟨rfl, rfl, rfl⟩
  · intro n
    constructor
    · intro ⟨v, hv⟩
      by_contra hn
      have hn0 : n = 0 := by omega
      subst hn0
      simp only [run, List.range', runLoop] at hv
      exact Except.noConfusion hv
    · intro hn
      exact ⟨_, (run_pos env m0 n hn).2.1⟩

/-- Witness for C5 at the concrete environment `demoEnv` with 2 epochs. -/
theorem C5_witness :
    (1 ≤ 2) ∧
    ((run demoEnv 2 0).YhatFinal = some (demoEnv.predict (demoEnv.fit^[2] 0)) ∧
      (run demoEnv 2 0).testResult =
        Except.ok (evaluate_preds demoEnv.logf (demoEnv.predict (demoEnv.fit^[2] 0))
          [demoEnv.testY] [demoEnv.testIdx]) ∧
      ∃ pre, (run demoEnv 2 0).events =
        pre ++ [.fitE 2, .predictE 2,
          .printFullE 2 (evaluate_preds demoEnv.logf
            (demoEnv.predict (demoEnv.fit^[2] 0))
            [demoEnv.trainY, demoEnv.valY] [demoEnv.trainIdx, demoEnv.valIdx]),
          .evalTestE]) :=
  ⟨by norm_num, C5_final_test_evaluation demoEnv 0 2 (by norm_num)⟩

/-- Witness for C9 at the concrete environment `demoEnv` with 2 epochs. -/
theorem C9_witness :
    (1 ≤ 2) ∧
    ((∀ e, 1 ≤ e → e ≤ 2 →
        e % 1 = 0 ∧ ∃ tv, REvent.printFullE e tv ∈ (run demoEnv 2 0).events) ∧
      ∀ e, REvent.printTimeE e ∉ (run demoEnv 2 0).events) :=
  ⟨by norm_num, C9_full_report_every_epoch demoEnv 0 2 (by norm_num)⟩

/-- Witness for C10 at the concrete environment `demoEnv`: with 0 epochs
the loop never runs and the test evaluation raises; with 3 epochs it
succeeds. -/
theorem C10_witness :
    ((run demoEnv 0 0).events = [] ∧
      (run demoEnv 0 0).YhatFinal = none ∧
      (run demoEnv 0 0).testResult =
        Except.error "TypeError: NoneType object is not subscriptable") ∧
    ∃ v, (run demoEnv 3 0).testResult = Except.ok v :=
  ⟨(C10_requires_positive_epochs demoEnv 0).1,
    ((C10_requires_positive_epochs demoEnv 0).2 3).mpr (by norm_num)⟩

namespace NodeClassification

variable {α ρ γ : Type} [DecidableEq α] [DecidableEq ρ] [DecidableEq γ]

/-! ### Lemmas about `lastIdx` and `resolveTargets` -/

theorem lastIdx_eq_none {l : List α} {x : α} (h : x ∉ l) : lastIdx l x = none := by
  induction l with
  | nil => rfl
  | cons a l ih =>
    have hx : x ∉ l := fun hm => h (List.mem_cons_of_mem _ hm)
    have ha : a ≠ x := fun he => h (he ▸ List.mem_cons_self _ _)
    simp [lastIdx, ih hx, ha]

theorem lastIdx_isSome_of_mem {l : List α} {x : α} (h : x ∈ l) :
    (lastIdx l x).isSome := by
  induction l with
  | nil => simp at h
  | cons a l ih =>
    rcases List.mem_cons.mp h with rfl | hm
    · cases hl : lastIdx l x with
      | some j => simp [lastIdx, hl]
      | none => simp [lastIdx, hl]
    · have := ih hm
      cases hl : lastIdx l x with
      | some j => simp [lastIdx, hl]
      | none => rw [hl] at this; simp at this

theorem lastIdx_getElem? {l : List α} {x : α} :
    ∀ {j : ℕ}, lastIdx l x = some j → l[j]? = some x := by
  induction l with
  | nil => intro j h; simp [lastIdx] at h
  | cons a l ih =>
    intro j h
    rw [lastIdx] at h
    cases hl : lastIdx l x with
    | some j2 =>
      rw [hl] at h
      obtain rfl : j2 + 1 = j := Option.some.inj h
      simpa using ih hl
    | none =>
      rw [hl] at h
      by_cases ha : a = x
      · rw [if_pos ha] at h
        obtain rfl : 0 = j := Option.some.inj h
        simp [ha]
      · rw [if_neg ha] at h
        exact absurd h (by simp)

theorem lastIdx_inj {l : List α} {x y : α} {j : ℕ}
    (hx : lastIdx l x = some j) (hy : lastIdx l y = some j) : x = y := by
  have h1 := lastIdx_getElem? hx
  have h2 := lastIdx_getElem? hy
  rw [h1] at h2
  exact Option.some.inj h2

theorem resolveTargets_none {atoms : List α} {classes : List γ} :
    ∀ {targets : List (α × ρ × γ)} (t : α × ρ × γ), t ∈ targets →
      lastIdx atoms t.1 = none →
      resolveTargets atoms classes targets = none := by
  intro targets
  induction targets with
  | nil => intro t ht; simp at ht
  | cons a ts ih =>
    intro t ht hnone
    rcases List.mem_cons.mp ht with rfl | hm
    · cases hc : lastIdx classes t.2.2 <;> simp [resolveTargets, hnone, hc]
    · cases ha : lastIdx atoms a.1 with
      | none => cases hc : lastIdx classes a.2.2 <;> simp [resolveTargets, ha, hc]
      | some r =>
        cases hc : lastIdx classes a.2.2 with
        | none => simp [resolveTargets, ha, hc]
        | some c => simp [resolveTargets, ha, hc, ih t hm hnone]

theorem resolveTargets_some {atoms : List α} {classes : List γ} :
    ∀ {targets : List (α × ρ × γ)},
      (∀ t ∈ targets, (lastIdx atoms t.1).isSome ∧
        (lastIdx classes t.2.2).isSome) →
      resolveTargets atoms classes targets =
        some (targets.map (fun t =>
          ((lastIdx atoms t.1).getD 0, (lastIdx classes t.2.2).getD 0))) := by
  intro targets
  induction targets with
  | nil => intro _; rfl
  | cons a ts ih =>
    intro h
    obtain ⟨h1, h2⟩ := h a (List.mem_cons_self _ _)
    obtain ⟨r, hr⟩ := Option.isSome_iff_exists.mp h1
    obtain ⟨c, hc⟩ := Option.isSome_iff_exists.mp h2
    have := ih (fun t ht => h t (List.mem_cons_of_mem _ ht))
    simp [resolveTargets, hr, hc, this]

theorem countP_eq_one_of_unique {β : Type} [DecidableEq β] {l : List β}
    {p : β → Bool} {b : β} (hnd : l.Nodup) (hb : b ∈ l) (hpb : p b = true)
    (huniq : ∀ x ∈ l, p x = true → x = b) :
    l.countP p = 1 := by
  have hle : l.countP p ≤ l.count b := by
    rw [List.count_eq_countP]
    exact List.countP_mono_left (fun x hx hpx => by
      have := huniq x hx hpx
      simp [this])
  have hcount : l.count b ≤ 1 := List.nodup_iff_count_le_one.mp hnd b
  have hpos : 0 < l.countP p := List.countP_pos_iff.mpr ⟨b, hb, hpb⟩
  omega

/-- The successful-build equation: when every lookup succeeds and the
resolved list is non-empty, `build_dataset` returns the record built
from it. -/
theorem build_dataset_ok {atoms : List α} {targets : List (α × ρ × γ)}
    {L : List (ℕ × ℕ)}
    (hres : resolveTargets atoms ((targets.map (fun t => t.2.2)).dedup) targets =
      some L)
    (hL : L.isEmpty = false) :
    build_dataset atoms targets = Except.ok
      { Xshape := (atoms.dedup.length, atoms.dedup.length)
        Xval := fun _ _ => 0
        Yshape := (atoms.dedup.length,
          ((targets.map (fun t => t.2.2)).dedup).length)
        Yval := fun r c => L.countP (fun p => decide (p.1 = r ∧ p.2 = c))
        X_node_idx := L.map (fun p => p.1) } := by
  unfold build_dataset
  rw [hres]
  simp [hL]

/-! ### Claims C3, C6, C8 about `build_dataset` -/

/-- C6: for every target list containing a statement whose node is
absent from the node enumeration (`nodes_map`), `build_dataset` fails
with the `KeyError` of the `nodes_map[x]` lookup — it never silently
ignores the statement or returns a result. -/
theorem C6_missing_node_keyerror (atoms : List α) (targets : List (α × ρ × γ))
    (h : ∃ t ∈ targets, t.1 ∉ atoms) :
    build_dataset atoms targets = Except.error "KeyError" := by
  obtain ⟨t, ht, hmem⟩ := h
  unfold build_dataset
  rw [resolveTargets_none t ht (lastIdx_eq_none hmem)]

/-- Witness for C6: a target whose node is missing from an empty atom
enumeration. -/
theorem C6_witness :
    build_dataset ([] : List ℕ) [((0 : ℕ), (0 : ℕ), (0 : ℕ))] =
      Except.error "KeyError" :=
  C6_missing_node_keyerror _ _ ⟨(0, 0, 0), by simp, by simp⟩

/-- C8: whenever `build_dataset` returns, the feature matrix `X` is the
N×N placeholder sparse matrix over the full node universe — the shape of
the N×N identity, every entry zero, with `N` the number of nodes in
`nodes_map` (featureless mode; `sp.csr_matrix((N, N))`, line 46). -/
theorem C8_featureless_placeholder (atoms : List α)
    (targets : List (α × ρ × γ))
    (h : buildOk (build_dataset atoms targets) = true) :
    XshapeOf (build_dataset atoms targets) =
        (atoms.dedup.length, atoms.dedup.length) ∧
      ∀ r c, XvalOf (build_dataset atoms targets) r c = 0 := by
  cases hres : resolveTargets atoms ((targets.map (fun t => t.2.2)).dedup) targets with
  | none =>
    unfold build_dataset at h
    rw [hres] at h
    simp [buildOk] at h
  | some tl =>
    cases htl : tl.isEmpty with
    | false =>
      rw [build_dataset_ok hres htl]
      simp [XshapeOf, XvalOf]
    | true =>
      unfold build_dataset at h
      rw [hres] at h
      simp [buildOk, htl] at h

/-- Witness for C8: two atoms, one target; the build succeeds and `X` is
the all-zero 2×2 placeholder. -/
theorem C8_witness :
    (buildOk (build_dataset [(0 : ℕ), 1] [((0 : ℕ), (0 : ℕ), (7 : ℕ))]) = true) ∧
    XshapeOf (build_dataset [(0 : ℕ), 1] [((0 : ℕ), (0 : ℕ), (7 : ℕ))]) = (2, 2) ∧
    XvalOf (build_dataset [(0 : ℕ), 1] [((0 : ℕ), (0 : ℕ), (7 : ℕ))]) 0 0 = 0 := by
  have h := C8_featureless_placeholder [(0 : ℕ), 1]
    [((0 : ℕ), (0 : ℕ), (7 : ℕ))] (by rfl)
  exact ⟨by rfl, h.1.trans (by norm_num), h.2 0 0⟩

/-- C3 counterexample: the claim fails for a target list with a repeated
statement.  With one atom and the same target statement listed twice,
the CSR constructor sums the duplicate coordinates and the entry
`Y[nodes_map[node], classes_map[class]]` is `2`, not `1` (and the row is
not one-hot). -/
theorem C3_counterexample :
    YvalOf (build_dataset [(0 : ℕ)]
        [((0 : ℕ), (0 : ℕ), (0 : ℕ)), (0, 0, 0)]) 0 0 = 2 ∧
      buildOk (build_dataset [(0 : ℕ)]
        [((0 : ℕ), (0 : ℕ), (0 : ℕ)), (0, 0, 0)]) = true := by
  constructor <;> rfl

/-- C3 (amended): for every non-empty list of target statements whose
nodes are pairwise distinct and all present in the node universe,
`build_dataset` returns a label matrix `Y` of shape N×C in which every
target's entry `Y[nodes_map[node], classes_map[class]]` is `1`, every
row of a labeled node is one-hot, and every row belonging to an
unlabeled node is all-zero. -/
theorem C3_one_hot_labels (atoms : List α) (targets : List (α × ρ × γ))
    (hne : targets ≠ [])
    (hnd : (targets.map (fun t => t.1)).Nodup)
    (hmem : ∀ t ∈ targets, t.1 ∈ atoms) :
    ∃ d, build_dataset atoms targets = Except.ok d ∧
      d.Yshape = (atoms.dedup.length,
        ((targets.map (fun t => t.2.2)).dedup).length) ∧
      (∀ t ∈ targets, ∀ r c,
        lastIdx atoms t.1 = some r →
        lastIdx ((targets.map (fun t2 => t2.2.2)).dedup) t.2.2 = some c →
        d.Yval r c = 1 ∧ ∀ c2, c2 ≠ c → d.Yval r c2 = 0) ∧
      (∀ r, (∀ t ∈ targets, lastIdx atoms t.1 ≠ some r) →
        ∀ c, d.Yval r c = 0) := by
  have hsome : ∀ t ∈ targets, (lastIdx atoms t.1).isSome ∧
      (lastIdx ((targets.map (fun t2 => t2.2.2)).dedup) t.2.2).isSome := by
    intro t ht
    refine ⟨lastIdx_isSome_of_mem (hmem t ht), lastIdx_isSome_of_mem ?_⟩
    exact List.mem_dedup.mpr (List.mem_map_of_mem _ ht)
  have hres := resolveTargets_some hsome
  have hndt : targets.Nodup := List.Nodup.of_map _ hnd
  have hinj := List.inj_on_of_nodup_map hnd
  have hempty : (targets.map (fun t =>
      ((lastIdx atoms t.1).getD 0,
        ((lastIdx ((targets.map (fun t2 => t2.2.2)).dedup) t.2.2).getD 0)))).isEmpty = false := by
    rcases targets with _ | ⟨a, ts⟩
    · exact absurd rfl hne
    · rfl
  refine ⟨_, build_dataset_ok hres hempty, rfl, ?_, ?_⟩
  · -- labeled rows: entry 1 at the class column, 0 elsewhere
    intro t ht r c hr hc
    have hFt1 : (lastIdx atoms t.1).getD 0 = r := by rw [hr]; rfl
    have hFt2 : ((lastIdx ((targets.map (fun t2 => t2.2.2)).dedup) t.2.2).getD 0) = c := by
      rw [hc]; rfl
    have hrow : ∀ t2 ∈ targets, (lastIdx atoms t2.1).getD 0 = r → t2 = t := by
      intro t2 ht2 h2
      obtain ⟨r2, hr2⟩ := Option.isSome_iff_exists.mp (hsome t2 ht2).1
      rw [hr2] at h2
      simp only [Option.getD_some] at h2
      subst h2
      exact hinj ht2 ht (lastIdx_inj hr2 hr)
    constructor
    · dsimp only
      rw [List.countP_map]
      refine countP_eq_one_of_unique hndt ht ?_ ?_
      · simp [Function.comp_def, hFt1, hFt2]
      · intro x hx hpx
        simp only [Function.comp_def, decide_eq_true_eq] at hpx
        exact hrow x hx hpx.1
    · intro c2 hc2
      dsimp only
      rw [List.countP_map, List.countP_eq_zero]
      intro x hx hpx
      simp only [Function.comp_def, decide_eq_true_eq] at hpx
      have hx2 := hrow x hx hpx.1
      subst hx2
      exact hc2 (hFt2.symm.trans hpx.2).symm
  · -- rows of unlabeled nodes are all-zero
    intro r hr c
    dsimp only
    rw [List.countP_map, List.countP_eq_zero]
    intro x hx hpx
    simp only [Function.comp_def, decide_eq_true_eq] at hpx
    obtain ⟨r2, hr2⟩ := Option.isSome_iff_exists.mp (hsome x hx).1
    rw [hr2] at hpx
    simp only [Option.getD_some] at hpx
    exact hr x hx (hpx.1 ▸ hr2)

/-- Witness for C3 (amended) at a concrete input: two atoms, two targets
with distinct nodes. -/
theorem C3_witness :
    ([((0 : ℕ), (0 : ℕ), (5 : ℕ)), (1, 0, 6)] ≠ ([] : List (ℕ × ℕ × ℕ))) ∧
    ∃ d, build_dataset [0, 1] [((0 : ℕ), (0 : ℕ), (5 : ℕ)), (1, 0, 6)] =
        Except.ok d ∧ d.Yshape = (2, 2) := by
  refine ⟨by simp, ?_⟩
  obtain ⟨d, hd, hsh, _, _⟩ := C3_one_hot_labels [0, 1]
    [((0 : ℕ), (0 : ℕ), (5 : ℕ)), (1, 0, 6)] (by simp) (by decide) (by decide)
  exact ⟨d, hd, hsh.trans (by norm_num)⟩

/-- C7 counterexample: in a two-layer model the output layer (index 1)
is constructed with no `W_regularizer` at all — not with
`l2(layers[-1]['l2norm'])` as the claim states. -/
theorem C7_counterexample :
    wregOf (build_model [demoCfgHidden, demoCfgOut] 3 2) 1 = none ∧
      wregOf (build_model [demoCfgHidden, demoCfgOut] 3 2) 1 ≠
        some demoCfgOut.l2norm := by
  refine ⟨rfl, ?_⟩
  rw [show wregOf (build_model [demoCfgHidden, demoCfgOut] 3 2) 1 = none from rfl]
  simp

/-- C7 (amended): in the model built by `build_model`, every hidden
graph-convolution layer is constructed with an L2 weight-regularization
penalty of its configured `l2norm` strength, while the output layer is
constructed without any weight regularizer. -/
theorem C7_l2_hidden_only (layers : List LayerConfig) (Ycols support : ℕ)
    (h2 : 2 ≤ layers.length) :
    ∃ specs, build_model layers Ycols support = Except.ok specs ∧
      specs.length = layers.length ∧
      List.Forall₂ (fun cfg s => s.w_reg = some cfg.l2norm ∧
          s.units = cfg.hidden_nodes)
        (layers.take (layers.length - 1)) specs.dropLast ∧
      ∃ out, specs.getLast? = some out ∧ out.w_reg = none ∧
        out.units = Ycols := by
  refine ⟨(layers.take (layers.length - 1)).map (hiddenLayerSpec support) ++
    [outputLayerSpec support Ycols (layers.getD (layers.length - 1) default)],
    ?_, ?_, ?_, ?_⟩
  · unfold build_model
    rw [if_neg (by omega)]
  · simp only [List.length_append, List.length_map, List.length_take,
      List.length_cons, List.length_nil]
    omega
  · rw [List.dropLast_concat, List.forall₂_map_right_iff]
    exact List.forall₂_same.mpr (fun cfg _ => ⟨rfl, rfl⟩)
  · exact ⟨_, List.getLast?_concat _, rfl, rfl⟩

/-- Witness for C7 (amended) at a concrete two-layer configuration. -/
theorem C7_witness :
    (2 ≤ ([demoCfgHidden, demoCfgOut] : List LayerConfig).length) ∧
    ∃ specs, build_model [demoCfgHidden, demoCfgOut] 3 2 = Except.ok specs ∧
      ∃ out, specs.getLast? = some out ∧ out.w_reg = none ∧ out.units = 3 := by
  refine ⟨by norm_num, ?_⟩
  obtain ⟨specs, h1, _, _, hout⟩ :=
    C7_l2_hidden_only [demoCfgHidden, demoCfgOut] 3 2 (by norm_num)
  exact ⟨specs, h1, hout⟩

end NodeClassification

end Mrgcn

section Scratch
open Mrgcn
example : npArgmax [1, 3, 3] = 1 := by norm_num [npArgmax]
example : npArgmax [3, 1, 3] = 0 := by norm_num [npArgmax]
example : npExtract [1, 0, 1] [5, 6, 7] = [5, 7] := by
  norm_num [npExtract, List.zip, List.zipWith, List.filter]
example :
    evaluate_preds (fun q => q) [[1, 0], [0, 1]] [[[1, 0], [0, 1]]] [[0, 1]] =
      ([-1], [1]) := by
  norm_num [evaluate_preds, categorical_crossentropy, accuracy, fancyIndex,
    npExtract, matFlat, qmean, npArgmax, List.zip, List.zipWith, List.filter]
example : evaluate_preds (fun q => q) [[1]] [[[1]]] [[]] = ([0], [0]) := by
  norm_num [evaluate_preds, categorical_crossentropy, accuracy, fancyIndex,
    npExtract, matFlat, qmean, List.zip, List.zipWith, List.filter]
end Scratch
